import Mathlib

/-!
Verification of the exchange-rate monitor (src/index.js).

Shallow embedding of the program's data model and operations:
* the SQLite table `exchange_rates(id INTEGER PRIMARY KEY AUTOINCREMENT, date TEXT, rate REAL)`
  is a `Store`: a list of rows plus the next AUTOINCREMENT value;
* the SQL queries `ORDER BY id DESC LIMIT 1` and `ORDER BY date DESC` are modelled
  with `List.insertionSort` under the corresponding comparison (SQLite guarantees
  only the ordering, not tie order, and ties are resolved by the sort chosen here);
* the ingestion job `getAndStoreUSDtoINRRate`, the startup bootstrap, the cron
  callback and the three HTTP handlers are modelled as pure functions over an
  explicit `World` (store + log lines), with the outcomes of the external fetch
  and of the SQLite insert passed in as parameters;
* JS string operations used by the `/api/cron-status` handler
  (`trim`, `split("\n")`, `slice(-10)`) are translated to `List Char` functions.

`REAL` column values are modelled as `Option ℚ` (`none` is SQL NULL, which is what
SQLite stores when JS `undefined` is bound to a parameter; the column has no
NOT NULL constraint).
-/

/-- One row of the `exchange_rates` table:
`id INTEGER PRIMARY KEY AUTOINCREMENT, date TEXT, rate REAL`.
`rate` is `Option ℚ` because the column is nullable and the code can bind
JS `undefined` (stored as NULL) to it. -/
structure RateObservation where
  id : Nat
  date : String
  rate : Option ℚ
  deriving Repr, DecidableEq

/-- The persistent store: the rows of `exchange_rates` in insertion order,
plus the next AUTOINCREMENT id to be assigned. -/
structure Store where
  rows : List RateObservation
  nextId : Nat
  deriving Repr, DecidableEq

/-- The freshly created (empty) table; SQLite AUTOINCREMENT starts at 1. -/
def Store.emptyStore : Store := ⟨[], 1⟩

/-- A successful `INSERT INTO exchange_rates (date, rate) VALUES (?, ?)`:
appends one row with the store-assigned surrogate key. -/
def Store.insertRow (s : Store) (date : String) (rate : Option ℚ) : Store :=
  ⟨s.rows ++ [⟨s.nextId, date, rate⟩], s.nextId + 1⟩

/-- A sequence of successful inserts, in order. -/
def Store.insertMany (s : Store) (ops : List (String × Option ℚ)) : Store :=
  ops.foldl (fun t op => t.insertRow op.1 op.2) s

/-- The query `SELECT COUNT(*) as count FROM exchange_rates`. -/
def Store.countRows (s : Store) : Nat := s.rows.length

/-- The function `isDatabaseEmpty` from src/index.js: resolves
`row.count === 0`. -/
def isDatabaseEmpty (s : Store) : Bool := s.countRows == 0

/-- SQLite's comparison of two TEXT values (memcmp on the byte sequences),
as a boolean `≤` on the character lists. -/
def memcmpLe : List Char → List Char → Bool
  | [], _ => true
  | _ :: _, [] => false
  | c :: cs, d :: ds => if c = d then memcmpLe cs ds else decide (c < d)

/-- The `ORDER BY id DESC` comparison: `a` comes before `b` when `b.id ≤ a.id`. -/
def byIdDesc (a b : RateObservation) : Prop := b.id ≤ a.id

instance : DecidableRel byIdDesc :=
  fun a b => inferInstanceAs (Decidable (b.id ≤ a.id))

instance : IsTotal RateObservation byIdDesc :=
  ⟨fun a b => le_total b.id a.id⟩

instance : IsTrans RateObservation byIdDesc :=
  ⟨fun _ _ _ h1 h2 => le_trans h2 h1⟩

/-- The `ORDER BY date DESC` comparison: `a` comes before `b` when
`b.date ≤ a.date` in SQLite's bytewise TEXT order. -/
def byDateDesc (a b : RateObservation) : Prop :=
  memcmpLe b.date.data a.date.data = true

instance : DecidableRel byDateDesc :=
  fun a b => inferInstanceAs (Decidable (memcmpLe b.date.data a.date.data = true))

theorem memcmpLe_total : ∀ x y, memcmpLe x y = true ∨ memcmpLe y x = true
  | [], _ => Or.inl rfl
  | _ :: _, [] => Or.inr rfl
  | c :: cs, d :: ds => by
    by_cases hcd : c = d
    · subst hcd
      rcases memcmpLe_total cs ds with h | h
      · exact Or.inl (by simpa [memcmpLe] using h)
      · exact Or.inr (by simpa [memcmpLe] using h)
    · rcases lt_or_gt_of_ne hcd with h | h
      · exact Or.inl (by simp [memcmpLe, hcd, h])
      · exact Or.inr (by simp [memcmpLe, Ne.symm hcd, h])

theorem memcmpLe_trans :
    ∀ x y z, memcmpLe x y = true → memcmpLe y z = true → memcmpLe x z = true
  | [], _, _, _, _ => rfl
  | _ :: _, [], _, h1, _ => by simp [memcmpLe] at h1
  | _ :: _, _ :: _, [], _, h2 => by simp [memcmpLe] at h2
  | c :: cs, d :: ds, e :: es, h1, h2 => by
    by_cases hcd : c = d <;> by_cases hde : d = e
    · subst hcd; subst hde
      simp only [memcmpLe, if_pos rfl] at h1 h2 ⊢
      exact memcmpLe_trans cs ds es h1 h2
    · subst hcd
      simpa [memcmpLe, hde] using h2
    · subst hde
      simpa [memcmpLe, hcd] using h1
    · simp only [memcmpLe, if_neg hcd, decide_eq_true_eq] at h1
      simp only [memcmpLe, if_neg hde, decide_eq_true_eq] at h2
      have hce : c < e := lt_trans h1 h2
      simp [memcmpLe, ne_of_lt hce, hce]

instance : IsTotal RateObservation byDateDesc :=
  ⟨fun a b => memcmpLe_total b.date.data a.date.data⟩

instance : IsTrans RateObservation byDateDesc :=
  ⟨fun _ _ _ h1 h2 => memcmpLe_trans _ _ _ h2 h1⟩

/-- The query `SELECT * FROM exchange_rates ORDER BY id DESC LIMIT 1`
(src/index.js, `getLatestRate`): the rows ordered by `id` descending, first
row if any. -/
def getLatestRate (s : Store) : Option RateObservation :=
  (s.rows.insertionSort byIdDesc).head?

/-- The query `SELECT * FROM exchange_rates ORDER BY date DESC`
(src/index.js, `getAllRates`): the rows ordered by `date` descending in
SQLite's bytewise TEXT order. -/
def getAllRates (s : Store) : List RateObservation :=
  s.rows.insertionSort byDateDesc

/-- The mutable state the program touches: the SQLite store and the log file
`exchange_rate_log.txt`, kept as its lines (each without the trailing newline). -/
structure World where
  store : Store
  logLines : List String
  deriving Repr, DecidableEq

/-- The function `log(message)` from src/index.js: appends
`${timestamp}: ${message}\n` to the log file (and echoes to the console,
which has no state here). The ISO-8601 timestamp produced by
`new Date().toISOString()` is a parameter. -/
def logEvent (w : World) (ts msg : String) : World :=
  { w with logLines := w.logLines ++ [ts ++ ": " ++ msg] }

/-- Outcome of the axios GET against the rate service: either the network call
errors (the promise rejects with message `msg`), or a response arrives and
`response.data.rates` is either absent (`none`) or a JSON object mapping
currency codes to numbers. -/
inductive FetchOutcome where
  | netErr (msg : String)
  | resp (rates : Option (List (String × ℚ)))
  deriving Repr, DecidableEq

/-- JS property lookup on the `rates` object (`rates.INR`): `none` is JS
`undefined`, i.e. the field is absent. -/
def lookupField (obj : List (String × ℚ)) (k : String) : Option ℚ :=
  (obj.find? (fun p => p.1 == k)).map (·.2)

/-- JS string interpolation of the fetched value (`${inrRate}`): `undefined`
prints as "undefined". -/
def showRate : Option ℚ → String
  | none => "undefined"
  | some q => toString q

deriving instance DecidableEq for Except

/-- Result of one call of `getAndStoreUSDtoINRRate`: the new world and the
settled state of the returned promise (`.ok` = resolved, `.error m` =
rejected with an error whose `.message` is `m`). -/
structure IngestResult where
  world : World
  result : Except String Unit
  deriving Repr, DecidableEq

/-- The message of the TypeError thrown by evaluating
`response.data.rates.INR` when `response.data.rates` is `undefined`. -/
def typeErrMsg : String := "Cannot read properties of undefined (reading INR)"

/-- The function `getAndStoreUSDtoINRRate` from src/index.js. The then-branch reads
`response.data.rates.INR` (throwing a TypeError, caught by the catch branch,
when `rates` is absent; producing `undefined` when only `INR` is absent) and
runs the INSERT with the current date. The insert callback either logs the
insert error and rejects, or logs success and resolves. The catch branch logs
the fetch error and rejects. `insertErr` is the outcome SQLite gives the
INSERT, `today` is `new Date().toISOString().split("T")[0]`. -/
def getAndStoreUSDtoINRRate (w : World) (ts today : String)
    (fetch : FetchOutcome) (insertErr : Option String) : IngestResult :=
  match fetch with
  | .netErr msg =>
      ⟨logEvent w ts ("Error fetching exchange rate: " ++ msg), .error msg⟩
  | .resp none =>
      ⟨logEvent w ts ("Error fetching exchange rate: " ++ typeErrMsg), .error typeErrMsg⟩
  | .resp (some rates) =>
      let inrRate := lookupField rates "INR"
      match insertErr with
      | some emsg =>
          ⟨logEvent w ts ("Error inserting data: " ++ emsg), .error emsg⟩
      | none =>
          let w1 : World := { w with store := w.store.insertRow today inrRate }
          ⟨logEvent w1 ts
            ("Stored in DB: 1 USD = " ++ showRate inrRate ++ " INR on " ++ today), .ok ()⟩

/-- The startup callback of `new sqlite3.Database(...)` in src/index.js, after
`CREATE TABLE IF NOT EXISTS` succeeds: awaits `isDatabaseEmpty()` and, exactly
when it is true, logs the bootstrap message and awaits one run of
`getAndStoreUSDtoINRRate` (whose rejection is caught by the surrounding
try/catch). Returns the new world and the number of times the ingestion job
was invoked. -/
def startupBootstrap (w : World) (ts today : String) (fetch : FetchOutcome)
    (insertErr : Option String) : World × Nat :=
  if isDatabaseEmpty w.store then
    ((getAndStoreUSDtoINRRate
        (logEvent w ts "Database is empty. Fetching initial exchange rate...")
        ts today fetch insertErr).world, 1)
  else (w, 0)

/-- The `cron.schedule("0 0 * * *", ...)` callback from src/index.js: logs the
run message, then calls `getAndStoreUSDtoINRRate()` discarding the returned
promise (no rejection handler is attached). `ts0` and `ts1` are the
timestamps of the two log calls. -/
def scheduledRun (w : World) (ts0 ts1 today : String) (fetch : FetchOutcome)
    (insertErr : Option String) : World :=
  (getAndStoreUSDtoINRRate
      (logEvent w ts0 "Running daily USD to INR exchange rate check")
      ts1 today fetch insertErr).world

/-- Shape of the JSON response of `GET /api/latest-rate`. -/
structure LatestRateResponse where
  status : Nat
  success : Bool
  data : Option RateObservation
  message : Option String
  deriving Repr, DecidableEq

/-- The `GET /api/latest-rate` handler: 500 with the error message when the
query rejects; otherwise 200 with the row when one exists (a row object is
always truthy), 404 with "No data available" when `db.get` produced no row. -/
def latestRateHandler (dbErr : Option String) (s : Store) : LatestRateResponse :=
  match dbErr with
  | some m => ⟨500, false, none, some m⟩
  | none =>
    match getLatestRate s with
    | some row => ⟨200, true, some row, none⟩
    | none => ⟨404, false, none, some "No data available"⟩

/-- Shape of the JSON response of `GET /api/rates`. -/
structure RatesResponse where
  status : Nat
  success : Bool
  data : List RateObservation
  message : Option String
  deriving Repr, DecidableEq

/-- The `GET /api/rates` handler: 500 when the query rejects, else 200 with
all rows ordered by date descending. -/
def ratesHandler (dbErr : Option String) (s : Store) : RatesResponse :=
  match dbErr with
  | some m => ⟨500, false, [], some m⟩
  | none => ⟨200, true, getAllRates s, none⟩

/-- JS `String.prototype.trim()` on the character list: drop whitespace from
both ends. -/
def trimChars (cs : List Char) : List Char :=
  ((cs.dropWhile Char.isWhitespace).reverse.dropWhile Char.isWhitespace).reverse

/-- JS `str.split("\n")` on the character list; on the empty string it yields
`[""]`, matching JS. -/
def splitNl : List Char → List (List Char)
  | [] => [[]]
  | c :: cs =>
    if c = '\n' then [] :: splitNl cs
    else
      match splitNl cs with
      | [] => [[c]]
      | l :: ls => (c :: l) :: ls

/-- JS `arr.slice(-10)`: the last (at most) 10 elements. -/
def sliceLast10 {α : Type} (xs : List α) : List α := xs.drop (xs.length - 10)

/-- Shape of the JSON response of `GET /api/cron-status`. -/
structure CronStatusResponse where
  status : Nat
  success : Bool
  logs : List String
  message : Option String
  deriving Repr, DecidableEq

/-- The `GET /api/cron-status` handler: 500 when `fs.readFile` errors,
otherwise `data.trim().split("\n").slice(-10)` as `logs`. -/
def cronStatusHandler (readErr : Bool) (content : String) : CronStatusResponse :=
  if readErr then ⟨500, false, [], some "Error reading log file"⟩
  else ⟨200, true, (sliceLast10 (splitNl (trimChars content.data))).map String.mk, none⟩

/-- The content of `exchange_rate_log.txt` built from its lines: every
`log(...)` call appends the line followed by a newline. -/
def renderFile (lines : List String) : String :=
  ⟨(lines.map (fun l => l.data ++ ['\n'])).flatten⟩

/-- A log line recording a fetch failure: it contains the fixed message
written by the catch branch of `getAndStoreUSDtoINRRate`. -/
def isFetchErrorLine (line : String) : Bool :=
  decide (("Error fetching exchange rate:".data) <:+: line.data)

example : getLatestRate Store.emptyStore = none := by decide
example :
    getLatestRate (Store.insertRow (Store.insertRow Store.emptyStore "2024-02-01" (some 80)) "2024-01-01" (some 81)) =
      some ⟨2, "2024-01-01", some 81⟩ := by decide
example :
    getAllRates (Store.insertRow (Store.insertRow Store.emptyStore "2024-01-01" (some 80)) "2024-02-02" (some 81)) =
      [⟨2, "2024-02-02", some 81⟩, ⟨1, "2024-01-01", some 80⟩] := by decide

/-! ## Invariants of reachable stores -/

/-- Invariant of every store reachable by successful inserts: ids strictly
increase along insertion order and stay below the next AUTOINCREMENT value. -/
def GoodStore (s : Store) : Prop :=
  s.rows.Pairwise (fun a b => a.id < b.id) ∧ ∀ r ∈ s.rows, r.id < s.nextId

theorem goodStore_empty : GoodStore Store.emptyStore := by
  constructor <;> simp [Store.emptyStore]

theorem goodStore_insertRow {s : Store} (h : GoodStore s) (d : String)
    (q : Option ℚ) : GoodStore (s.insertRow d q) := by
  obtain ⟨hp, hb⟩ := h
  constructor
  · simp only [Store.insertRow, List.pairwise_append]
    refine ⟨hp, List.pairwise_singleton _ _, ?_⟩
    intro a ha b hb'
    simp only [List.mem_singleton] at hb'
    subst hb'
    exact hb a ha
  · intro r hr
    simp only [Store.insertRow, List.mem_append, List.mem_singleton] at hr
    rcases hr with hr | rfl
    · exact Nat.lt_succ_of_lt (hb r hr)
    · exact Nat.lt_succ_self _

theorem goodStore_insertMany :
    ∀ (ops : List (String × Option ℚ)) (s : Store),
      GoodStore s → GoodStore (s.insertMany ops)
  | [], _, h => h
  | op :: ops, s, h => by
    have h1 := goodStore_insertRow h op.1 op.2
    simpa [Store.insertMany] using
      goodStore_insertMany ops (s.insertRow op.1 op.2) h1

theorem id_le_getLast_of_pairwise :
    ∀ {l : List RateObservation}, l.Pairwise (fun a b => a.id < b.id) →
      ∀ {m}, l.getLast? = some m → ∀ r ∈ l, r.id ≤ m.id := by
  intro l
  induction l with
  | nil => intro _ m hm; simp at hm
  | cons a t ih =>
    intro hp m hm r hr
    rcases List.pairwise_cons.mp hp with ⟨ha, ht⟩
    cases t with
    | nil =>
      simp only [List.getLast?_singleton, Option.some.injEq] at hm
      subst hm
      simp only [List.mem_singleton] at hr
      subst hr; exact le_refl _
    | cons b u =>
      have hm' : (b :: u).getLast? = some m := by
        simpa using hm
      rcases List.mem_cons.mp hr with rfl | hr'
      · have hmem : m ∈ b :: u := List.mem_of_getLast?_eq_some hm'
        exact le_of_lt (ha m hmem)
      · exact ih ht hm' r hr'

theorem id_inj_of_pairwise :
    ∀ {l : List RateObservation}, l.Pairwise (fun a b => a.id < b.id) →
      ∀ {a b}, a ∈ l → b ∈ l → a.id = b.id → a = b := by
  intro l
  induction l with
  | nil => intro _ a b ha; simp at ha
  | cons x t ih =>
    intro hp a b ha hb hab
    rcases List.pairwise_cons.mp hp with ⟨hx, ht⟩
    rcases List.mem_cons.mp ha with rfl | ha' <;>
      rcases List.mem_cons.mp hb with rfl | hb'
    · rfl
    · exact absurd hab (ne_of_lt (hx b hb'))
    · exact absurd hab.symm (ne_of_lt (hx a ha'))
    · exact ih ht ha' hb' hab

theorem head_insertionSort_byIdDesc {l : List RateObservation} (h : l ≠ []) :
    ∃ m t, l.insertionSort byIdDesc = m :: t ∧ m ∈ l ∧ ∀ r ∈ l, r.id ≤ m.id := by
  have hs : (l.insertionSort byIdDesc).Sorted byIdDesc :=
    List.sorted_insertionSort byIdDesc l
  have hperm := List.perm_insertionSort byIdDesc l
  have hne : l.insertionSort byIdDesc ≠ [] := by
    intro hnil
    exact h (List.Perm.nil_eq (hnil ▸ hperm)).symm
  obtain ⟨m, t, hmt⟩ := List.exists_cons_of_ne_nil hne
  refine ⟨m, t, hmt, ?_, ?_⟩
  · exact (List.mem_insertionSort byIdDesc).mp (hmt ▸ List.mem_cons_self m t)
  · intro r hr
    have hr' : r ∈ m :: t := hmt ▸ (List.mem_insertionSort byIdDesc).mpr hr
    rcases List.mem_cons.mp hr' with rfl | hr''
    · exact le_refl _
    · exact List.rel_of_sorted_cons (hmt ▸ hs) r hr''

/-! ## C1: the latest rate is the max-id (most recently inserted) row -/

/-- C1: For every store state reachable by a sequence of successful inserts,
`getLatestRate` returns the observation with the maximum `id` — which is the
most recently inserted row — regardless of the date values of the rows. -/
theorem C1_getLatestRate_max_id (ops : List (String × Option ℚ)) :
    getLatestRate (Store.emptyStore.insertMany ops) =
      (Store.emptyStore.insertMany ops).rows.getLast? ∧
    ∀ m, getLatestRate (Store.emptyStore.insertMany ops) = some m →
      ∀ r ∈ (Store.emptyStore.insertMany ops).rows, r.id ≤ m.id := by
  set s := Store.emptyStore.insertMany ops with hs
  have hg : GoodStore s := goodStore_insertMany ops _ goodStore_empty
  by_cases hrows : s.rows = []
  · constructor
    · simp [getLatestRate, hrows]
    · intro m hm
      simp [getLatestRate, hrows] at hm
  · obtain ⟨m, t, hmt, hmem, hmax⟩ := head_insertionSort_byIdDesc hrows
    have hlatest : getLatestRate s = some m := by
      simp [getLatestRate, hmt]
    obtain ⟨m', hm'⟩ : ∃ m', s.rows.getLast? = some m' := by
      have := (List.getLast?_isSome (l := s.rows)).mpr hrows
      exact Option.isSome_iff_exists.mp this
    have hm'mem : m' ∈ s.rows := List.mem_of_getLast?_eq_some hm'
    have h1 : m'.id ≤ m.id := hmax m' hm'mem
    have h2 : m.id ≤ m'.id := id_le_getLast_of_pairwise hg.1 hm' m hmem
    have hmm : m = m' := id_inj_of_pairwise hg.1 hmem hm'mem (le_antisymm h2 h1)
    constructor
    · rw [hlatest, hm', hmm]
    · intro m0 hm0 r hr
      rw [hlatest, Option.some.injEq] at hm0
      subst hm0
      exact hmax r hr

/-- Witness for C1 at a concrete two-insert history whose dates are out of
calendar order: the latest row is the one with id 2. -/
theorem C1_witness :
    getLatestRate (Store.emptyStore.insertMany
        [("2024-02-01", some 80), ("2024-01-01", some 81)]) =
      (Store.emptyStore.insertMany
        [("2024-02-01", some 80), ("2024-01-01", some 81)]).rows.getLast? ∧
    (⟨1, "2024-02-01", some 80⟩ : RateObservation).id ≤ 2 :=
  ⟨(C1_getLatestRate_max_id [("2024-02-01", some 80), ("2024-01-01", some 81)]).1,
   (C1_getLatestRate_max_id [("2024-02-01", some 80), ("2024-01-01", some 81)]).2
      ⟨2, "2024-01-01", some 81⟩ (by decide) ⟨1, "2024-02-01", some 80⟩ (by decide)⟩

/-! ## C2: getAllRates is all rows, sorted by date descending -/

/-- C2: For every store state, `getAllRates` returns every stored observation
(the result is a permutation of the rows) and it is ordered by date
descending; rows with equal dates are unconstrained relative to each other,
since `byDateDesc` holds both ways between them. -/
theorem C2_getAllRates_sorted_by_date (s : Store) :
    (getAllRates s).Perm s.rows ∧ (getAllRates s).Sorted byDateDesc :=
  ⟨List.perm_insertionSort byDateDesc s.rows,
   List.sorted_insertionSort byDateDesc s.rows⟩

/-! ## C3: empty store gives empty latest and a 404 -/

/-- C3: When the store contains zero rows, `getLatestRate` returns none and
the `GET /api/latest-rate` handler responds with HTTP 404 and body
`{success:false, message:"No data available"}`. -/
theorem C3_empty_store_404 (s : Store) (h : s.rows = []) :
    getLatestRate s = none ∧
    latestRateHandler none s = ⟨404, false, none, some "No data available"⟩ := by
  have h1 : getLatestRate s = none := by simp [getLatestRate, h]
  exact ⟨h1, by simp [latestRateHandler, h1]⟩

/-- Witness for C3 at the freshly created store. -/
theorem C3_witness :
    getLatestRate Store.emptyStore = none ∧
    latestRateHandler none Store.emptyStore =
      ⟨404, false, none, some "No data available"⟩ :=
  C3_empty_store_404 Store.emptyStore rfl

/-! ## C9: insert/getAllRates round trip -/

/-- C9: After a successful insert of `(date="2024-01-15", rate=83.12)`,
`getAllRates` yields a row whose date equals "2024-01-15" and whose rate
equals exactly the rational 83.12 (the model stores the bound value as-is). -/
theorem C9_roundtrip (s : Store) :
    ∃ r ∈ getAllRates (s.insertRow "2024-01-15" (some (83.12 : ℚ))),
      r.date = "2024-01-15" ∧ r.rate = some (83.12 : ℚ) := by
  refine ⟨⟨s.nextId, "2024-01-15", some (83.12 : ℚ)⟩, ?_, rfl, rfl⟩
  have hmem : (⟨s.nextId, "2024-01-15", some (83.12 : ℚ)⟩ : RateObservation) ∈
      (s.insertRow "2024-01-15" (some (83.12 : ℚ))).rows := by
    simp [Store.insertRow]
  exact (List.mem_insertionSort byDateDesc).mpr hmem

/-! ## C4: bootstrap runs exactly when the store is empty -/

/-- C4: at process startup, after the table exists, the ingestion job is
invoked exactly once immediately if and only if the store's row count is
zero; when the count is positive the startup callback changes nothing. -/
theorem C4_bootstrap_iff_empty (w : World) (ts today : String)
    (fetch : FetchOutcome) (insertErr : Option String) :
    ((startupBootstrap w ts today fetch insertErr).2 = 1 ↔
      w.store.countRows = 0) ∧
    (0 < w.store.countRows →
      startupBootstrap w ts today fetch insertErr = (w, 0)) := by
  by_cases h : isDatabaseEmpty w.store
  · have hc : w.store.countRows = 0 := by simpa [isDatabaseEmpty] using h
    exact ⟨by simp [startupBootstrap, h, hc], fun hpos => by omega⟩
  · have hc : ¬ w.store.countRows = 0 := by simpa [isDatabaseEmpty] using h
    exact ⟨by simp [startupBootstrap, h, hc], fun _ => by simp [startupBootstrap, h]⟩

/-- Witness for C4: a store holding one row suppresses the bootstrap, and the
freshly created store triggers exactly one ingestion run. -/
theorem C4_witness :
    startupBootstrap ⟨⟨[⟨1, "2024-01-15", some 83⟩], 2⟩, []⟩ "T" "2024-01-16"
        (.resp (some [("INR", 83)])) none =
      (⟨⟨[⟨1, "2024-01-15", some 83⟩], 2⟩, []⟩, 0) ∧
    (startupBootstrap ⟨Store.emptyStore, []⟩ "T" "2024-01-16"
        (.netErr "offline") none).2 = 1 :=
  ⟨(C4_bootstrap_iff_empty ⟨⟨[⟨1, "2024-01-15", some 83⟩], 2⟩, []⟩ "T"
      "2024-01-16" (.resp (some [("INR", 83)])) none).2 (by decide),
   (C4_bootstrap_iff_empty ⟨Store.emptyStore, []⟩ "T" "2024-01-16"
      (.netErr "offline") none).1.mpr (by decide)⟩

/-! ## C5: failures are logged, but the promise rejects (claim corrected) -/

/-- Counterexample to C5 as stated: on a fetch failure,
`getAndStoreUSDtoINRRate` does not return normally to its caller — the
promise it returns rejects with the error, so the error is raised to the
caller (the cron callback attaches no rejection handler to it). -/
theorem C5_counterexample :
    ¬ (getAndStoreUSDtoINRRate ⟨Store.emptyStore, []⟩
        "2024-01-15T00:00:00.000Z" "2024-01-15"
        (.netErr "getaddrinfo ENOTFOUND") none).result = .ok () := by decide

/-- C5 (amended): for every run of the ingestion job, on fetch failure or
insert failure the job emits exactly one error log entry, leaves the store
unchanged, and the promise it returns rejects with the error — the failure
is propagated to the caller rather than swallowed. -/
theorem C5_corrected (w : World) (ts today : String) (fetch : FetchOutcome)
    (insertErr : Option String)
    (hfail : (∃ msg, fetch = .netErr msg) ∨ fetch = .resp none ∨
      (∃ rates emsg, fetch = .resp (some rates) ∧ insertErr = some emsg)) :
    (getAndStoreUSDtoINRRate w ts today fetch insertErr).world.store = w.store ∧
    (∃ line, (getAndStoreUSDtoINRRate w ts today fetch insertErr).world.logLines
        = w.logLines ++ [line]) ∧
    ∃ m, (getAndStoreUSDtoINRRate w ts today fetch insertErr).result = .error m := by
  rcases hfail with ⟨msg, rfl⟩ | rfl | ⟨rates, emsg, rfl, rfl⟩ <;>
    simp [getAndStoreUSDtoINRRate, logEvent]

/-- Witness for C5 (amended) at a concrete failed fetch. -/
theorem C5_witness :
    (getAndStoreUSDtoINRRate ⟨Store.emptyStore, []⟩ "T" "2024-01-15"
        (.netErr "timeout") none).world.store = Store.emptyStore ∧
    (∃ line, (getAndStoreUSDtoINRRate ⟨Store.emptyStore, []⟩ "T" "2024-01-15"
        (.netErr "timeout") none).world.logLines = ([] : List String) ++ [line]) ∧
    ∃ m, (getAndStoreUSDtoINRRate ⟨Store.emptyStore, []⟩ "T" "2024-01-15"
        (.netErr "timeout") none).result = .error m :=
  C5_corrected ⟨Store.emptyStore, []⟩ "T" "2024-01-15" (.netErr "timeout") none
    (Or.inl ⟨"timeout", rfl⟩)

/-! ## C6: a missing INR field does not fail the fetch (claim corrected) -/

/-- Counterexample to C6 as stated: a response whose `rates` object is
present but lacks the INR field produces no error at all — the job resolves
successfully and inserts an observation whose rate is NULL
(`response.data.rates.INR` is `undefined`, which SQLite stores as NULL). -/
theorem C6_counterexample :
    (getAndStoreUSDtoINRRate ⟨Store.emptyStore, []⟩ "T" "2024-01-15"
        (.resp (some [("USD", 1)])) none).result = .ok () ∧
    (getAndStoreUSDtoINRRate ⟨Store.emptyStore, []⟩ "T" "2024-01-15"
        (.resp (some [("USD", 1)])) none).world.store.rows =
      [⟨1, "2024-01-15", none⟩] := by decide

/-- C6 (amended): the fetch path fails — the promise rejects, and no
observation is produced — when the network call errors or when the response
lacks the whole `rates` object (a TypeError is thrown and caught); but when
the `rates` object is present and merely lacks the INR field, the job
succeeds and inserts an observation whose rate is NULL. -/
theorem C6_corrected (w : World) (ts today : String) (insertErr : Option String) :
    (∀ msg,
      (getAndStoreUSDtoINRRate w ts today (.netErr msg) insertErr).result =
          .error msg ∧
      (getAndStoreUSDtoINRRate w ts today (.netErr msg) insertErr).world.store =
          w.store) ∧
    ((getAndStoreUSDtoINRRate w ts today (.resp none) insertErr).result =
        .error typeErrMsg ∧
      (getAndStoreUSDtoINRRate w ts today (.resp none) insertErr).world.store =
        w.store) ∧
    (∀ rates, lookupField rates "INR" = none →
      (getAndStoreUSDtoINRRate w ts today (.resp (some rates)) none).world.store =
          w.store.insertRow today none ∧
      (getAndStoreUSDtoINRRate w ts today (.resp (some rates)) none).result =
          .ok ()) := by
  refine ⟨?_, ?_, ?_⟩
  · intro msg; exact ⟨rfl, rfl⟩
  · exact ⟨rfl, rfl⟩
  · intro rates h
    simp [getAndStoreUSDtoINRRate, logEvent, h]

/-- Witness for C6 (amended): a network error rejects without touching the
store, and a response without the INR field inserts a NULL-rate row. -/
theorem C6_witness :
    ((getAndStoreUSDtoINRRate ⟨Store.emptyStore, []⟩ "T" "2024-01-15"
        (.netErr "socket hang up") none).result = .error "socket hang up" ∧
      (getAndStoreUSDtoINRRate ⟨Store.emptyStore, []⟩ "T" "2024-01-15"
        (.netErr "socket hang up") none).world.store = Store.emptyStore) ∧
    (getAndStoreUSDtoINRRate ⟨Store.emptyStore, []⟩ "T" "2024-01-15"
        (.resp (some [("EUR", 1)])) none).world.store =
      Store.emptyStore.insertRow "2024-01-15" none :=
  ⟨(C6_corrected ⟨Store.emptyStore, []⟩ "T" "2024-01-15" none).1 "socket hang up",
   ((C6_corrected ⟨Store.emptyStore, []⟩ "T" "2024-01-15" none).2.2
      [("EUR", 1)] (by decide)).1⟩

/-! ## C7: frame effect of a fetch failure during a scheduled run -/

/-- C7: for every store state and log state, a fetch failure during a
scheduled ingestion run leaves the store's row set unchanged (so the
`GET /api/rates` row count is unchanged) and appends exactly one new
fetch-error line to the log (besides the cron run-start line, which is not
an error line as long as the timestamp does not itself contain the error
marker). -/
theorem C7_fetch_failure_frame (w : World) (ts0 ts1 today msg : String)
    (insertErr : Option String)
    (hts0 : isFetchErrorLine
      (ts0 ++ ": " ++ "Running daily USD to INR exchange rate check") = false) :
    (scheduledRun w ts0 ts1 today (.netErr msg) insertErr).store = w.store ∧
    (ratesHandler none
        (scheduledRun w ts0 ts1 today (.netErr msg) insertErr).store).data.length =
      (ratesHandler none w.store).data.length ∧
    (scheduledRun w ts0 ts1 today (.netErr msg) insertErr).logLines =
      w.logLines ++
        [ts0 ++ ": " ++ "Running daily USD to INR exchange rate check",
         ts1 ++ ": " ++ ("Error fetching exchange rate: " ++ msg)] ∧
    (scheduledRun w ts0 ts1 today (.netErr msg) insertErr).logLines.countP
        isFetchErrorLine =
      w.logLines.countP isFetchErrorLine + 1 := by
  have hstore : (scheduledRun w ts0 ts1 today (.netErr msg) insertErr).store =
      w.store := rfl
  have hlog : (scheduledRun w ts0 ts1 today (.netErr msg) insertErr).logLines =
      w.logLines ++
        [ts0 ++ ": " ++ "Running daily USD to INR exchange rate check",
         ts1 ++ ": " ++ ("Error fetching exchange rate: " ++ msg)] := by
    simp [scheduledRun, getAndStoreUSDtoINRRate, logEvent]
  have herr : isFetchErrorLine
      (ts1 ++ ": " ++ ("Error fetching exchange rate: " ++ msg)) = true := by
    have hdata : (ts1 ++ ": " ++ ("Error fetching exchange rate: " ++ msg)).data =
        (ts1 ++ ": ").data ++
          ("Error fetching exchange rate:".data ++ (' ' :: msg.data)) := by
      simp [String.data_append]
    simp only [isFetchErrorLine, hdata, decide_eq_true_eq]
    exact ⟨(ts1 ++ ": ").data, ' ' :: msg.data, by simp⟩
  refine ⟨hstore, by rw [hstore], hlog, ?_⟩
  rw [hlog, List.countP_append]
  simp [List.countP_cons, hts0, herr]

set_option maxRecDepth 8192 in
/-- Witness for C7 at a concrete world with one stored row and one old log
line. -/
theorem C7_witness :
    (scheduledRun ⟨⟨[⟨1, "2024-01-14", some 83⟩], 2⟩, ["2024-01-14T00:00:00.000Z: Cron job scheduled. Waiting for next execution..."]⟩
        "2024-01-15T00:00:00.000Z" "2024-01-15T00:00:00.100Z" "2024-01-15"
        (.netErr "connect ETIMEDOUT") none).store =
      ⟨[⟨1, "2024-01-14", some 83⟩], 2⟩ ∧
    (scheduledRun ⟨⟨[⟨1, "2024-01-14", some 83⟩], 2⟩, ["2024-01-14T00:00:00.000Z: Cron job scheduled. Waiting for next execution..."]⟩
        "2024-01-15T00:00:00.000Z" "2024-01-15T00:00:00.100Z" "2024-01-15"
        (.netErr "connect ETIMEDOUT") none).logLines.countP isFetchErrorLine =
      (["2024-01-14T00:00:00.000Z: Cron job scheduled. Waiting for next execution..."] : List String).countP isFetchErrorLine + 1 := by
  have h := C7_fetch_failure_frame
    ⟨⟨[⟨1, "2024-01-14", some 83⟩], 2⟩, ["2024-01-14T00:00:00.000Z: Cron job scheduled. Waiting for next execution..."]⟩
    "2024-01-15T00:00:00.000Z" "2024-01-15T00:00:00.100Z" "2024-01-15"
    "connect ETIMEDOUT" none (by decide)
  exact ⟨h.1, h.2.2.2⟩

/-! ## Machinery for cron-status: trim/split/slice over rendered log files -/

/-- A log line as the program writes it: nonempty, free of newlines, and
starting and ending with a non-whitespace character (every line starts with
an ISO-8601 timestamp digit and ends with a printable character). -/
def goodLine (cs : List Char) : Bool :=
  !cs.isEmpty && cs.all (fun ch => !(ch == '\n')) &&
    !(cs.head?.getD ' ').isWhitespace && !(cs.getLast?.getD ' ').isWhitespace

/-- The characters of the rendered log file: each line followed by `'\n'`. -/
def joinLines : List (List Char) → List Char
  | [] => []
  | l :: ls => l ++ '\n' :: joinLines ls

/-- The lines joined by single newlines, with no trailing newline: what
`trim` leaves of a well-formed rendered log file. -/
def interLines : List (List Char) → List Char
  | [] => []
  | [l] => l
  | l :: l' :: ls => l ++ '\n' :: interLines (l' :: ls)

theorem renderFile_data (lines : List String) :
    (renderFile lines).data = joinLines (lines.map String.data) := by
  induction lines with
  | nil => rfl
  | cons l ls ih =>
    simp only [renderFile, List.map_cons, List.flatten_cons, joinLines]
    simpa [renderFile] using ih

theorem joinLines_eq_interLines :
    ∀ ls : List (List Char), ls ≠ [] → joinLines ls = interLines ls ++ ['\n']
  | [], h => absurd rfl h
  | [l], _ => by simp [joinLines, interLines]
  | l :: l' :: ls, _ => by
    have ih := joinLines_eq_interLines (l' :: ls) (by simp)
    simp only [joinLines, interLines] at ih ⊢
    rw [ih]
    simp

theorem splitNl_append_newline (l rest : List Char) (h : ∀ ch ∈ l, ch ≠ '\n') :
    splitNl (l ++ '\n' :: rest) = l :: splitNl rest := by
  induction l with
  | nil => simp [splitNl]
  | cons c cs ih =>
    have hc : c ≠ '\n' := h c (List.mem_cons_self c cs)
    have ih' := ih (fun ch hch => h ch (List.mem_cons_of_mem c hch))
    have ih2 : splitNl (cs.append ('\n' :: rest)) = cs :: splitNl rest := ih'
    simp only [List.cons_append, splitNl, if_neg hc]
    rw [ih2]

theorem splitNl_no_newline (l : List Char) (h : ∀ ch ∈ l, ch ≠ '\n') :
    splitNl l = [l] := by
  induction l with
  | nil => rfl
  | cons c cs ih =>
    have hc : c ≠ '\n' := h c (List.mem_cons_self c cs)
    have ih' := ih (fun ch hch => h ch (List.mem_cons_of_mem c hch))
    simp only [splitNl, if_neg hc, ih']

theorem splitNl_interLines :
    ∀ ls : List (List Char), ls ≠ [] → (∀ l ∈ ls, ∀ ch ∈ l, ch ≠ '\n') →
      splitNl (interLines ls) = ls
  | [], h, _ => absurd rfl h
  | [l], _, hn => by
    simp only [interLines]
    exact splitNl_no_newline l (hn l (by simp))
  | l :: l' :: ls, _, hn => by
    have ih := splitNl_interLines (l' :: ls) (by simp)
      (fun m hm => hn m (List.mem_cons_of_mem l hm))
    simp only [interLines]
    rw [splitNl_append_newline l _ (hn l (List.mem_cons_self l _)), ih]

theorem interLines_ends_nonws :
    ∀ ls : List (List Char), ls ≠ [] → (∀ l ∈ ls, goodLine l = true) →
      ∃ B c, interLines ls = B ++ [c] ∧ c.isWhitespace = false
  | [], h, _ => absurd rfl h
  | [l], _, hg => by
    have hgl := hg l (by simp)
    simp only [goodLine, Bool.and_eq_true, Bool.not_eq_true'] at hgl
    obtain ⟨⟨⟨hne, _⟩, _⟩, hlast⟩ := hgl
    have hne' : l ≠ [] := by
      intro h; subst h; simp at hne
    obtain ⟨c, hc⟩ := Option.isSome_iff_exists.mp
      ((List.getLast?_isSome (l := l)).mpr hne')
    obtain ⟨B, hB⟩ := List.getLast?_eq_some_iff.mp hc
    refine ⟨B, c, by simpa [interLines] using hB, ?_⟩
    rw [hc] at hlast
    simpa using hlast
  | l :: l' :: ls, _, hg => by
    obtain ⟨B, c, hBc, hcws⟩ := interLines_ends_nonws (l' :: ls) (by simp)
      (fun m hm => hg m (List.mem_cons_of_mem l hm))
    refine ⟨l ++ '\n' :: B, c, ?_, hcws⟩
    simp only [interLines, hBc]
    simp

theorem trimChars_joinLines (ls : List (List Char)) (hne : ls ≠ [])
    (hg : ∀ l ∈ ls, goodLine l = true) :
    trimChars (joinLines ls) = interLines ls := by
  obtain ⟨l0, rest, rfl⟩ := List.exists_cons_of_ne_nil hne
  have hgl0 := hg l0 (List.mem_cons_self l0 rest)
  simp only [goodLine, Bool.and_eq_true, Bool.not_eq_true'] at hgl0
  obtain ⟨⟨⟨hne0, _⟩, hhead⟩, _⟩ := hgl0
  obtain ⟨c0, cs0, rfl⟩ : ∃ c0 cs0, l0 = c0 :: cs0 := by
    cases l0 with
    | nil => simp at hne0
    | cons c cs => exact ⟨c, cs, rfl⟩
  have hc0 : c0.isWhitespace = false := by simpa using hhead
  have hfront : (joinLines ((c0 :: cs0) :: rest)).dropWhile Char.isWhitespace =
      joinLines ((c0 :: cs0) :: rest) := by
    show ((c0 :: cs0) ++ '\n' :: joinLines rest).dropWhile Char.isWhitespace = _
    rw [List.cons_append]
    exact List.dropWhile_cons_of_neg (by simp [hc0])
  obtain ⟨B, c, hBc, hcws⟩ := interLines_ends_nonws ((c0 :: cs0) :: rest)
    (by simp) hg
  have hjoin := joinLines_eq_interLines ((c0 :: cs0) :: rest) (by simp)
  unfold trimChars
  rw [hfront, hjoin, hBc]
  rw [List.reverse_append, List.reverse_append]
  simp only [List.reverse_cons, List.reverse_nil, List.nil_append,
    List.cons_append, List.singleton_append]
  rw [List.dropWhile_cons_of_pos (by simp [Char.isWhitespace]),
    List.dropWhile_cons_of_neg (by simp [hcws])]
  simp

theorem cronStatus_render (lines : List String) (hne : lines ≠ [])
    (hg : ∀ l ∈ lines, goodLine l.data = true) :
    cronStatusHandler false (renderFile lines) =
      ⟨200, true, sliceLast10 lines, none⟩ := by
  have hne' : lines.map String.data ≠ [] := by simpa using hne
  have hg' : ∀ l ∈ lines.map String.data, goodLine l = true := by
    intro l hl
    obtain ⟨s, hs, rfl⟩ := List.mem_map.mp hl
    exact hg s hs
  have hnn : ∀ l ∈ lines.map String.data, ∀ ch ∈ l, ch ≠ '\n' := by
    intro l hl ch hch
    have hgl := hg' l hl
    simp only [goodLine, Bool.and_eq_true] at hgl
    obtain ⟨⟨⟨_, hall⟩, _⟩, _⟩ := hgl
    have := List.all_eq_true.mp hall ch hch
    simpa using this
  have h1 : cronStatusHandler false (renderFile lines) =
      ⟨200, true,
        (sliceLast10 (splitNl (trimChars (renderFile lines).data))).map
          String.mk, none⟩ := rfl
  rw [h1, renderFile_data, trimChars_joinLines _ hne' hg',
    splitNl_interLines _ hne' hnn]
  have h2 : sliceLast10 (lines.map String.data) =
      (sliceLast10 lines).map String.data := by
    simp [sliceLast10, List.map_drop, List.length_map]
  rw [h2, List.map_map]
  have h3 : (sliceLast10 lines).map (String.mk ∘ String.data) =
      (sliceLast10 lines).map id :=
    List.map_congr_left (fun l _ => rfl)
  rw [h3, List.map_id]

/-! ## C8: cron-status returns the 10 most recent lines -/

/-- C8: For every log file (rendered from well-formed log lines) containing
more than 10 lines, `GET /api/cron-status` responds with
`{success:true, logs:[...]}` where `logs` is exactly the 10 most recent log
lines — the suffix of length 10 — in their original order. -/
theorem C8_cron_status_last10 (lines : List String)
    (hg : ∀ l ∈ lines, goodLine l.data = true) (hlen : 10 < lines.length) :
    cronStatusHandler false (renderFile lines) =
      ⟨200, true, lines.drop (lines.length - 10), none⟩ ∧
    (lines.drop (lines.length - 10)).length = 10 := by
  have hne : lines ≠ [] := by
    intro h
    subst h
    simp at hlen
  refine ⟨?_, ?_⟩
  · simpa [sliceLast10] using cronStatus_render lines hne hg
  · rw [List.length_drop]
    omega

/-- Witness for C8 at a rendered log file of 11 one-word lines. -/
theorem C8_witness :
    cronStatusHandler false (renderFile
        ["L01", "L02", "L03", "L04", "L05", "L06", "L07", "L08", "L09",
         "L10", "L11"]) =
      ⟨200, true,
        (["L01", "L02", "L03", "L04", "L05", "L06", "L07", "L08", "L09",
          "L10", "L11"] : List String).drop
          ((["L01", "L02", "L03", "L04", "L05", "L06", "L07", "L08", "L09",
             "L10", "L11"] : List String).length - 10), none⟩ ∧
    ((["L01", "L02", "L03", "L04", "L05", "L06", "L07", "L08", "L09",
       "L10", "L11"] : List String).drop
        ((["L01", "L02", "L03", "L04", "L05", "L06", "L07", "L08", "L09",
           "L10", "L11"] : List String).length - 10)).length = 10 :=
  C8_cron_status_last10
    ["L01", "L02", "L03", "L04", "L05", "L06", "L07", "L08", "L09",
     "L10", "L11"] (by decide) (by decide)

/-! ## C10: cron-status on empty/whitespace files and on at most 10 lines -/

/-- C10: when the log file exists but is empty or all-whitespace,
`GET /api/cron-status` responds 200 with `logs` equal to the one-element
array containing the empty string (`"".split("\n")` is `[""]`), not an
empty array; and when the file holds between 1 and 10 well-formed lines,
all of them are returned. -/
theorem C10_cron_status_edge_cases :
    (∀ content : String, (∀ ch ∈ content.data, ch.isWhitespace = true) →
      cronStatusHandler false content = ⟨200, true, [""], none⟩) ∧
    (∀ lines : List String, (∀ l ∈ lines, goodLine l.data = true) →
      lines ≠ [] → lines.length ≤ 10 →
      cronStatusHandler false (renderFile lines) = ⟨200, true, lines, none⟩) := by
  constructor
  · intro content hws
    have h1 : content.data.dropWhile Char.isWhitespace = [] :=
      List.dropWhile_eq_nil_iff.mpr (fun x hx => hws x hx)
    have htrim : trimChars content.data = [] := by
      simp [trimChars, h1]
    have h2 : cronStatusHandler false content =
        ⟨200, true,
          (sliceLast10 (splitNl (trimChars content.data))).map String.mk,
          none⟩ := rfl
    rw [h2, htrim]
    rfl
  · intro lines hg hne hlen
    have h := cronStatus_render lines hne hg
    have hslice : sliceLast10 lines = lines := by
      simp [sliceLast10, Nat.sub_eq_zero_of_le hlen]
    rw [h, hslice]

/-- Witness for C10: the empty file, a whitespace-only file, and a two-line
file. -/
theorem C10_witness :
    cronStatusHandler false "" = ⟨200, true, [""], none⟩ ∧
    cronStatusHandler false " \n " = ⟨200, true, [""], none⟩ ∧
    cronStatusHandler false (renderFile ["A: x", "B: y"]) =
      ⟨200, true, ["A: x", "B: y"], none⟩ :=
  ⟨C10_cron_status_edge_cases.1 "" (by decide),
   C10_cron_status_edge_cases.1 " \n " (by decide),
   C10_cron_status_edge_cases.2 ["A: x", "B: y"] (by decide) (by decide)
     (by decide)⟩
